import Mathlib

/-!
Verification of the row-composition, range-targeting, header-splitting and
row-deletion logic of the google-sheets-api-proxy repository.

The development shallowly embeds the pure logic of the two deployment
variants found in the repository:

* the restify server (index.js) together with googleSheetsService.js, and
* the Netlify serverless functions (netlify/functions/entries.js,
  netlify/functions/sheets.js).

JavaScript arrays of JSON scalars become `List JVal`, machine numbers become
`Int`/`Nat`, fallible paths become `Option`/`Except`, and the formatted
current-time string (the only impure input of the row composer) is passed in
as an explicit parameter.
-/

namespace SheetsProxy

/-- JSON scalar values, as they appear as spreadsheet cells (the data model
calls a row an ordered sequence of scalar cell values). -/
inductive JVal where
  | jnull
  | jbool (b : Bool)
  | jnum (n : Int)
  | jstr (s : String)
deriving DecidableEq, Repr

/-- The JSON value carried by the `data` field of a request body: either a
scalar or an array of scalar cells. -/
inductive BodyVal where
  | scalar (v : JVal)
  | arr (elems : List JVal)
deriving DecidableEq, Repr

/-- JavaScript truthiness of a scalar: null, false, 0 and the empty string
are falsy. -/
def truthy : JVal → Bool
  | .jnull => false
  | .jbool b => b
  | .jnum n => !(n == 0)
  | .jstr s => !(s == "")

/-- JavaScript truthiness of a body value; arrays (objects) are always
truthy, even when empty. -/
def truthyBody : BodyVal → Bool
  | .scalar v => truthy v
  | .arr _ => true

/-- Truthiness of a possibly absent value; an absent field (undefined) is
falsy. -/
def truthyOpt : Option BodyVal → Bool
  | none => false
  | some v => truthyBody v

/-- Truthiness of a possibly absent string field: absent and empty strings
are falsy. -/
def truthyStr : Option String → Bool
  | none => false
  | some v => !(v == "")

/-- JavaScript `x || dflt` over a possibly absent string. -/
def jsOr (s : Option String) (dflt : String) : String :=
  match s with
  | none => dflt
  | some v => if v == "" then dflt else v

/-!
Column-Index Codec (googleSheetsService.js, getColumnLetter, lines 161-168).

The source is a while loop

    let columnName = '';
    while (columnNumber >= 0) {
        columnName = String.fromCharCode((columnNumber % 26) + 65) + columnName;
        columnNumber = Math.floor(columnNumber / 26) - 1;
    }

Each iteration strictly decreases a nonnegative `columnNumber`, so for input
`n >= 0` the loop runs at most `n + 1` times; the embedding makes that bound
an explicit structural fuel argument, and `getColumnLetterCodes_lt` /
`getColumnLetterCodes_ge` recover the loop recurrence exactly.
-/

/-- One loop iteration of getColumnLetter, emitting the character code
`n % 26 + 65` after the recursive call on `n / 26 - 1`; the first argument
is a structural bound on the number of remaining iterations. -/
def getColumnLetterCodesAux : Nat → Nat → List Nat
  | 0, _ => []
  | fuel + 1, n =>
    if n < 26 then [n % 26 + 65]
    else getColumnLetterCodesAux fuel (n / 26 - 1) ++ [n % 26 + 65]

/-- The list of character codes emitted by the getColumnLetter loop for a
nonnegative column index. -/
def getColumnLetterCodes (n : Nat) : List Nat :=
  getColumnLetterCodesAux (n + 1) n

/-- getColumnLetter (googleSheetsService.js lines 161-168): for a negative
input the loop body never runs and the empty string is returned. -/
def getColumnLetter (i : Int) : String :=
  if i < 0 then ""
  else String.mk ((getColumnLetterCodes i.toNat).map Char.ofNat)

theorem getColumnLetterCodesAux_fuel :
    ∀ n f₁ f₂, n < f₁ → n < f₂ →
      getColumnLetterCodesAux f₁ n = getColumnLetterCodesAux f₂ n := by
  intro n
  induction n using Nat.strong_induction_on with
  | _ n ih =>
    intro f₁ f₂ h₁ h₂
    match f₁, f₂ with
    | g₁ + 1, g₂ + 1 =>
      by_cases h : n < 26
      · simp [getColumnLetterCodesAux, h]
      · have hq : n / 26 < n := Nat.div_lt_self (by omega) (by omega)
        have hm : n / 26 - 1 < n := by omega
        simp only [getColumnLetterCodesAux, if_neg h]
        rw [ih (n / 26 - 1) hm g₁ g₂ (by omega) (by omega)]

theorem getColumnLetterCodes_lt {n : Nat} (h : n < 26) :
    getColumnLetterCodes n = [n % 26 + 65] := by
  simp [getColumnLetterCodes, getColumnLetterCodesAux, h]

theorem getColumnLetterCodes_ge {n : Nat} (h : ¬ n < 26) :
    getColumnLetterCodes n
      = getColumnLetterCodes (n / 26 - 1) ++ [n % 26 + 65] := by
  have hq : n / 26 < n := Nat.div_lt_self (by omega) (by omega)
  show getColumnLetterCodesAux (n + 1) n = _
  simp only [getColumnLetterCodesAux, if_neg h]
  rw [getColumnLetterCodesAux_fuel (n / 26 - 1) n (n / 26 - 1 + 1)
      (by omega) (by omega)]
  rfl

/-- Decoder for the bijective base-26 letter notation: a letter with code
`c` contributes the digit `c - 65 + 1` (A=1 … Z=26). -/
def lettersToIndexAux (acc : Nat) : List Nat → Nat
  | [] => acc
  | c :: cs => lettersToIndexAux (acc * 26 + (c - 65 + 1)) cs

/-- Zero-based column index denoted by a list of letter codes. -/
def lettersToIndex (cs : List Nat) : Nat :=
  lettersToIndexAux 0 cs - 1

theorem lettersToIndexAux_append (xs ys : List Nat) :
    ∀ acc, lettersToIndexAux acc (xs ++ ys)
      = lettersToIndexAux (lettersToIndexAux acc xs) ys := by
  induction xs with
  | nil => intro acc; rfl
  | cons c cs ih => intro acc; simp [lettersToIndexAux, ih]

theorem lettersToIndexAux_getColumnLetterCodes :
    ∀ n acc, lettersToIndexAux acc (getColumnLetterCodes n)
      = acc * 26 ^ (getColumnLetterCodes n).length + n + 1 := by
  intro n
  induction n using Nat.strong_induction_on with
  | _ n ih =>
    intro acc
    by_cases h : n < 26
    · rw [getColumnLetterCodes_lt h]
      have : n % 26 = n := Nat.mod_eq_of_lt h
      simp [lettersToIndexAux, this]
      omega
    · have hq : n / 26 < n := Nat.div_lt_self (by omega) (by omega)
      have hm : n / 26 - 1 < n := by omega
      rw [getColumnLetterCodes_ge h, lettersToIndexAux_append]
      rw [ih (n / 26 - 1) hm acc]
      simp only [lettersToIndexAux, List.length_append, List.length_cons,
        List.length_nil]
      have hmod : 26 * (n / 26) + n % 26 = n := Nat.div_add_mod n 26
      have hpow : 26 ^ ((getColumnLetterCodes (n / 26 - 1)).length + (0 + 1))
          = 26 ^ (getColumnLetterCodes (n / 26 - 1)).length * 26 := by
        rw [Nat.add_comm 0 1, pow_succ]
      rw [hpow]
      have hq1 : 1 ≤ n / 26 := by omega
      have hexp : n % 26 + 65 - 65 + 1 = n % 26 + 1 := by omega
      rw [hexp]
      ring_nf
      omega

/-- Round trip: decoding the emitted letters recovers the column index. -/
theorem lettersToIndex_getColumnLetterCodes (n : Nat) :
    lettersToIndex (getColumnLetterCodes n) = n := by
  unfold lettersToIndex
  rw [lettersToIndexAux_getColumnLetterCodes n 0]
  omega

/-- Claim C2: the column-index-to-letter conversion, defined for every
index >= 0, implements bijective base-26 encoding — repeatedly emitting the
letter for `index mod 26`, continuing with `floor(index/26) - 1` until that
becomes negative and prepending each letter — so that decoding the letters
(A=1 … Z=26 digits) recovers the index, and the listed example values hold. -/
theorem getColumnLetter_bijective_base26 :
    (∀ n : Nat, lettersToIndex (getColumnLetterCodes n) = n) ∧
    getColumnLetter 0 = "A" ∧
    getColumnLetter 25 = "Z" ∧
    getColumnLetter 26 = "AA" ∧
    getColumnLetter 701 = "ZZ" ∧
    getColumnLetter 702 = "AAA" := by
  refine ⟨lettersToIndex_getColumnLetterCodes, ?_, ?_, ?_, ?_, ?_⟩ <;> decide

/-!
Row Composer.

googleSheetsService.js appendRow (lines 51-74) composes the row as

    let rowData = [...data];
    if (includeTimestamp) {
        ...
        if (timestampColumn === 0) { rowData.unshift(timestamp); }
        else if (timestampColumn === -1) { rowData.push(timestamp); }
        else { rowData.splice(timestampColumn, 0, timestamp); }
    }

netlify/functions/entries.js (lines 264-281) composes it as

    let rowData = [...data];
    if (includeTimestamp) { ... rowData.splice(timestampColumn, 0, timestamp); }

The timestamp string (a pure function of the current instant and timezone)
is passed in as the parameter `ts`.
-/

/-- JavaScript `xs.splice(k, 0, item)` insertion semantics: a negative
start counts back from the end and is clamped at 0, a start beyond the
length is clamped to the length. -/
def spliceInsert (xs : List JVal) (k : Int) (item : JVal) : List JVal :=
  let len : Int := xs.length
  let start : Nat := (if k < 0 then max (len + k) 0 else min k len).toNat
  xs.take start ++ item :: xs.drop start

/-- Row composition of googleSheetsService.js appendRow (lines 51-74). -/
def composeRow (data : List JVal) (includeTimestamp : Bool)
    (timestampColumn : Int) (ts : JVal) : List JVal :=
  if includeTimestamp then
    if timestampColumn == 0 then ts :: data
    else if timestampColumn == -1 then data ++ [ts]
    else spliceInsert data timestampColumn ts
  else data

/-- Row composition of netlify/functions/entries.js (lines 264-281): the
timestamp is always inserted with plain splice semantics. -/
def composeRowServerless (data : List JVal) (includeTimestamp : Bool)
    (timestampColumn : Int) (ts : JVal) : List JVal :=
  if includeTimestamp then spliceInsert data timestampColumn ts else data

/-!
Range Resolver.
-/

/-- Write-path target range of googleSheetsService.js appendRow (line 77):
`range || sheetName + "!A1:" + getColumnLetter(rowData.length - 1) + "1"`,
where `rowLen` is the length of the composed row. -/
def appendTargetRange (sheetName : String) (rng : Option String)
    (rowLen : Nat) : String :=
  jsOr rng (sheetName ++ "!A1:" ++ getColumnLetter ((rowLen : Int) - 1) ++ "1")

/-- Write-path target range of netlify/functions/entries.js (line 283):
always the whole-sheet range `sheetName + "!A:Z"`. -/
def serverlessAppendRange (sheetName : String) : String :=
  sheetName ++ "!A:Z"

/-- Read-path range of netlify/functions/entries.js getRowData
(lines 47-57). -/
def netlifyReadRange (sheetName : String) (rng : Option String)
    (startRow endRow : Option Int) : String :=
  if truthyStr rng then sheetName ++ "!" ++ rng.getD ""
  else if startRow.isSome && endRow.isSome then
    sheetName ++ "!A" ++ toString (startRow.getD 0) ++ ":Z"
      ++ toString (endRow.getD 0)
  else if startRow.isSome then
    sheetName ++ "!A" ++ toString (startRow.getD 0) ++ ":Z"
  else sheetName ++ "!A:Z"

/-- Read-path range of the restify variant (index.js getEntries, line 37):
`range || sheetName + "!A:Z"` — an explicit range is used verbatim, without
the sheet-name prefix. -/
def restifyReadRange (sheetName : String) (rng : Option String) : String :=
  jsOr rng (sheetName ++ "!A:Z")

/-!
Request handler pipelines for POST /entries and GET /entries.

The external append/read call is abstracted by the flag `externalOk`
(whether the Google Sheets call succeeds); the pipelines record the HTTP
status, whether the external call was reached, and with which row and range.
-/

/-- Outcome of a POST /entries request: HTTP status, whether the external
append was invoked, and with which composed row and target range. -/
structure PostEntriesOutcome where
  statusCode : Nat
  appendCalled : Bool
  appendedRow : Option (List JVal)
  targetRange : Option String
deriving DecidableEq, Repr

/-- Is the `data` field present and an array (`Array.isArray`)? -/
def isArrOpt : Option BodyVal → Bool
  | some (.arr _) => true
  | _ => false

/-- JavaScript `[...data]` for a body value: arrays spread to their
elements, strings to their characters, and any other value is not iterable
(the spread throws a TypeError, modelled as `none`). -/
def spreadData : BodyVal → Option (List JVal)
  | .arr xs => some xs
  | .scalar (.jstr s) => some (s.data.map (fun c => .jstr (String.mk [c])))
  | .scalar _ => none

/-- POST /entries in the restify variant: index.js createEntry
(lines 56-93) followed by googleSheetsService.js appendRow. The handler
rejects a falsy spreadsheetId or sheetName with 400, then rejects
`!data || !Array.isArray(data)` with 400; otherwise it composes the row,
derives the target range and performs the external append (500 on external
failure). -/
def restifyPostEntries (spreadsheetId sheetName : Option String)
    (data : Option BodyVal) (includeTimestamp : Bool) (timestampColumn : Int)
    (explicitRange : Option String) (ts : JVal) (externalOk : Bool) :
    PostEntriesOutcome :=
  if truthyStr spreadsheetId && truthyStr sheetName then
    match data with
    | some (.arr vals) =>
      let rowData := composeRow vals includeTimestamp timestampColumn ts
      let rng := appendTargetRange (sheetName.getD "") explicitRange
        rowData.length
      { statusCode := if externalOk then 200 else 500
        appendCalled := true
        appendedRow := some rowData
        targetRange := some rng }
    | _ => ⟨400, false, none, none⟩
  else ⟨400, false, none, none⟩

/-- POST /entries in the serverless variant: netlify/functions/entries.js
handler (lines 244-304). After the falsy checks on spreadsheetId and
sheetName (400) it checks only `!data` (400) — there is no Array.isArray
check — then evaluates `[...data]` (a non-iterable value throws, surfacing
as 500 via the outer catch), composes the row by plain splice and appends
to the fixed range `sheetName + "!A:Z"`. -/
def netlifyPostEntries (spreadsheetId sheetName : Option String)
    (data : Option BodyVal) (includeTimestamp : Bool) (timestampColumn : Int)
    (ts : JVal) (externalOk : Bool) : PostEntriesOutcome :=
  if truthyStr spreadsheetId && truthyStr sheetName then
    if truthyOpt data then
      match spreadData (data.getD (.scalar .jnull)) with
      | some vals =>
        let rowData := composeRowServerless vals includeTimestamp
          timestampColumn ts
        { statusCode := if externalOk then 200 else 500
          appendCalled := true
          appendedRow := some rowData
          targetRange := some (serverlessAppendRange (sheetName.getD "")) }
      | none => ⟨500, false, none, none⟩
    else ⟨400, false, none, none⟩
  else ⟨400, false, none, none⟩

/-- Outcome of a GET /entries request: HTTP status, whether the external
read was invoked, and with which resolved range. -/
structure GetEntriesOutcome where
  statusCode : Nat
  externalCalled : Bool
  requestedRange : Option String
deriving DecidableEq, Repr

/-- GET /entries in the serverless variant: netlify/functions/entries.js
handler (lines 160-189): 400 when spreadsheetId or sheetName is missing,
before any external call. -/
def netlifyGetEntries (spreadsheetId sheetName : Option String)
    (rng : Option String) (startRow endRow : Option Int) :
    GetEntriesOutcome :=
  if truthyStr spreadsheetId && truthyStr sheetName then
    ⟨200, true, some (netlifyReadRange (sheetName.getD "") rng startRow endRow)⟩
  else ⟨400, false, none⟩

/-- GET /entries in the restify variant: index.js getEntries
(lines 27-53): 400 when spreadsheetId or sheetName is missing, before any
external call. -/
def restifyGetEntries (spreadsheetId sheetName : Option String)
    (rng : Option String) : GetEntriesOutcome :=
  if truthyStr spreadsheetId && truthyStr sheetName then
    ⟨200, true, some (restifyReadRange (sheetName.getD "") rng)⟩
  else ⟨400, false, none⟩

/-!
Header splitting of fetched rows (serverless GET /entries).
-/

/-- Result shape of getRowData for a nonempty fetch. -/
structure ReadResult where
  headers : Option (List String)
  data : List (List String)
  totalRows : Nat
deriving DecidableEq, Repr

/-- The handler option `includeHeader` of entries.js line 174 — strict
inequality of the query parameter with the literal string false: default
true unless the parameter is exactly that string. -/
def parseIncludeHeader (q : Option String) : Bool :=
  !(q == some "false")

/-- Row post-processing of netlify/functions/entries.js getRowData
(lines 64-90): with the header option the first fetched row becomes
`headers` and the rest `data`; otherwise `headers` is null and all rows are
data; `totalRows` is always the length of `data`. -/
def getRowDataProcess (rows : List (List String)) (includeHeader : Bool) :
    ReadResult :=
  if rows.length == 0 then ⟨some [], [], 0⟩
  else if includeHeader then ⟨some rows.headI, rows.tail, rows.tail.length⟩
  else ⟨none, rows, rows.length⟩

/-!
POST /sheets: sheet creation (netlify/functions/sheets.js and
index.js createSheet with googleSheetsService.js createSheet).

The external addSheet call is modelled by a list of existing sheet titles:
Google rejects a duplicate title with an error whose message contains the
phrase "already exists".
-/

/-- Does `pat` occur at the start of `s`? -/
def listStarts : List Char → List Char → Bool
  | [], _ => true
  | _ :: _, [] => false
  | p :: ps, c :: cs => p == c && listStarts ps cs

/-- Does `pat` occur anywhere inside `s` (first argument)? -/
def listContainsSub : List Char → List Char → Bool
  | [], pat => listStarts pat []
  | c :: cs, pat => listStarts pat (c :: cs) || listContainsSub cs pat

/-- JavaScript `s.includes(pat)`. -/
def strContains (s pat : String) : Bool :=
  listContainsSub s.data pat.data

/-- Result of the external spreadsheets.batchUpdate addSheet call. -/
inductive SheetsApiResult where
  | ok (sheetId : Nat) (title : String)
  | err (message : String)
deriving DecidableEq, Repr

/-- Error message the Google Sheets API returns for a duplicate sheet
title (external collaborator, spec section 6). -/
def googleDupMsg (title : String) : String :=
  "A sheet with the name \"" ++ title ++ "\" already exists. Please enter another name."

/-- Model of the external addSheet capability: adding a sheet whose title
already exists fails with the duplicate-title message. -/
def addSheetApi (existing : List String) (newId : Nat) (title : String) :
    SheetsApiResult :=
  if title ∈ existing then .err (googleDupMsg title) else .ok newId title

/-- Response of a POST /sheets request. -/
structure SheetsPostResponse where
  statusCode : Nat
  success : Bool
  sheetId : Option Nat
  newSheetTitle : Option String
  errorMsg : Option String
deriving DecidableEq, Repr

/-- POST /sheets in the serverless variant: netlify/functions/sheets.js
handler (lines 58-124). On success it returns the new sheet id and title.
On failure the catch block tests whether error.message includes the phrase
already exists, intending to answer 409 — but the 409 body interpolates `sheetName`,
whose `const` binding is scoped to the try block and is not visible inside
the catch block, so evaluating the template literal throws a ReferenceError
that escapes the handler (modelled as `Except.error`); any other failure
returns 500. -/
def netlifySheetsPost (spreadsheetId sheetName : Option String)
    (existing : List String) (newId : Nat) :
    Except String SheetsPostResponse :=
  if truthyStr spreadsheetId && truthyStr sheetName then
    match addSheetApi existing newId (sheetName.getD "") with
    | .ok sid t => .ok ⟨200, true, some sid, some t, none⟩
    | .err m =>
      if strContains m "already exists" then
        .error "ReferenceError: sheetName is not defined"
      else .ok ⟨500, false, none, none, some "Failed to create sheet"⟩
  else .ok ⟨400, false, none, none,
    some "Missing required parameters: spreadsheetId and sheetName"⟩

/-- POST /sheets in the restify variant: index.js createSheet
(lines 96-124) around googleSheetsService.js createSheet. Every failure of
the external call is mapped to HTTP 500; a success body carries only
success:true and a message — no sheet id or title fields. -/
def restifySheetsPost (spreadsheetId sheetName : Option String)
    (existing : List String) (newId : Nat) : SheetsPostResponse :=
  if truthyStr spreadsheetId && truthyStr sheetName then
    match addSheetApi existing newId (sheetName.getD "") with
    | .ok _ _ => ⟨200, true, none, none, none⟩
    | .err _ => ⟨500, false, none, none, some "Failed to create sheet"⟩
  else ⟨400, false, none, none,
    some "Missing required parameters: spreadsheetId and sheetName"⟩

/-!
Batch row deletion (netlify/functions/entries.js deleteRowsByNumber,
lines 94-133).

The sheet is a list of rows; the external deleteDimension request with a
half-open zero-based interval [start, stop) removes exactly the rows whose
zero-based index lies in that interval, and a batchUpdate applies its
requests in order.

`[...rowNumbers].sort((a, b) => b - a)` sorts the numbers descending; since
equal numbers are indistinguishable, any descending sort produces the same
list, modelled here by insertion sort.
-/

/-- Insert into a descending-sorted list, keeping it descending. -/
def insertDesc (a : Nat) : List Nat → List Nat
  | [] => [a]
  | b :: l => if b ≤ a then a :: b :: l else b :: insertDesc a l

/-- Descending sort, the model of `sort((a, b) => b - a)`. -/
def sortDesc (l : List Nat) : List Nat :=
  l.foldr insertDesc []

/-- External deleteDimension on ROWS with the half-open zero-based interval
[startIdx, stopIdx). -/
def deleteRowInterval {α : Type} (xs : List α) (startIdx stopIdx : Nat) :
    List α :=
  xs.take startIdx ++ xs.drop stopIdx

/-- deleteRowsByNumber (entries.js lines 94-133): sort the 1-based row
numbers descending, then delete interval [r - 1, r) for each in turn. -/
def deleteRowsByNumber {α : Type} (xs : List α) (rowNumbers : List Nat) :
    List α :=
  (sortDesc rowNumbers).foldl (fun s r => deleteRowInterval s (r - 1) r) xs

/-- Specification-side description of the batch delete: keep exactly the
rows whose 1-based position (counted from `pos`) is not among `rns`. -/
def keepRowsNotIn {α : Type} (xs : List α) (rns : List Nat) (pos : Nat) :
    List α :=
  match xs with
  | [] => []
  | x :: t =>
    if pos ∈ rns then keepRowsNotIn t rns (pos + 1)
    else x :: keepRowsNotIn t rns (pos + 1)

theorem insertDesc_perm (a : Nat) (l : List Nat) :
    List.Perm (insertDesc a l) (a :: l) := by
  induction l with
  | nil => exact List.Perm.refl _
  | cons b t ih =>
    by_cases h : b ≤ a
    · simp [insertDesc, h]
    · simp only [insertDesc, if_neg h]
      exact List.Perm.trans (List.Perm.cons b ih) (List.Perm.swap a b t)

theorem insertDesc_pairwise (a : Nat) (l : List Nat)
    (h : l.Pairwise (· ≥ ·)) : (insertDesc a l).Pairwise (· ≥ ·) := by
  induction l with
  | nil => simp [insertDesc]
  | cons b t ih =>
    rcases List.pairwise_cons.mp h with ⟨hb, ht⟩
    by_cases hba : b ≤ a
    · simp only [insertDesc, if_pos hba]
      refine List.pairwise_cons.mpr ⟨?_, h⟩
      intro x hx
      rcases List.mem_cons.mp hx with rfl | hx
      · exact hba
      · exact le_trans (hb x hx) hba
    · simp only [insertDesc, if_neg hba]
      refine List.pairwise_cons.mpr ⟨?_, ih ht⟩
      intro x hx
      have hx2 : x ∈ a :: t := (insertDesc_perm a t).mem_iff.mp hx
      rcases List.mem_cons.mp hx2 with rfl | hx2
      · omega
      · exact hb x hx2

theorem sortDesc_perm (l : List Nat) : List.Perm (sortDesc l) l := by
  induction l with
  | nil => exact List.Perm.refl _
  | cons a t ih =>
    exact List.Perm.trans (insertDesc_perm a (sortDesc t)) (List.Perm.cons a ih)

theorem sortDesc_pairwise (l : List Nat) : (sortDesc l).Pairwise (· ≥ ·) := by
  induction l with
  | nil => simp [sortDesc]
  | cons a t ih => exact insertDesc_pairwise a (sortDesc t) ih

theorem sortDesc_pairwise_gt {l : List Nat} (h : l.Nodup) :
    (sortDesc l).Pairwise (· > ·) := by
  have h1 := sortDesc_pairwise l
  have h2 : (sortDesc l).Nodup := (sortDesc_perm l).nodup_iff.mpr h
  exact (h1.and h2).imp (fun hx => by omega)

theorem keepRowsNotIn_all_lt {α : Type} :
    ∀ (xs : List α) (rns : List Nat) (pos : Nat),
      (∀ m ∈ rns, m < pos) → keepRowsNotIn xs rns pos = xs := by
  intro xs
  induction xs with
  | nil => intro rns pos _; rfl
  | cons x t ih =>
    intro rns pos h
    have hpos : pos ∉ rns := fun hm => absurd (h pos hm) (by omega)
    simp only [keepRowsNotIn, if_neg hpos]
    rw [ih rns (pos + 1) (fun m hm => by have := h m hm; omega)]

theorem keepRowsNotIn_shift {α : Type} :
    ∀ (xs : List α) (rns : List Nat) (r pos : Nat),
      (∀ m ∈ rns, m < r) → pos ≤ r →
      keepRowsNotIn (xs.take (r - pos) ++ xs.drop (r - pos + 1)) rns pos
        = keepRowsNotIn xs (r :: rns) pos := by
  intro xs
  induction xs with
  | nil =>
    intro rns r pos _ _
    simp [keepRowsNotIn]
  | cons x t ih =>
    intro rns r pos h hpr
    by_cases hpos : pos = r
    · subst hpos
      rw [show pos - pos = 0 from by omega]
      simp only [List.take_zero, List.nil_append, Nat.zero_add,
        List.drop_succ_cons, List.drop_zero]
      rw [keepRowsNotIn_all_lt t rns pos h]
      have hmem : pos ∈ pos :: rns := List.mem_cons_self _ _
      simp only [keepRowsNotIn, if_pos hmem]
      rw [keepRowsNotIn_all_lt t (pos :: rns) (pos + 1) ?_]
      intro m hm
      rcases List.mem_cons.mp hm with rfl | hm
      · omega
      · have := h m hm; omega
    · have hplt : pos < r := by omega
      rw [show r - pos = (r - (pos + 1)) + 1 from by omega]
      simp only [List.take_succ_cons, List.drop_succ_cons, List.cons_append]
      have hmem : (pos ∈ r :: rns) ↔ (pos ∈ rns) := by
        constructor
        · intro hm
          rcases List.mem_cons.mp hm with rfl | hm
          · omega
          · exact hm
        · exact fun hm => List.mem_cons_of_mem _ hm
      by_cases hin : pos ∈ rns
      · simp only [keepRowsNotIn, if_pos hin, if_pos (hmem.mpr hin)]
        exact ih rns r (pos + 1) h (by omega)
      · have hnin : pos ∉ r :: rns := fun hm => hin (hmem.mp hm)
        simp only [keepRowsNotIn, if_neg hin, if_neg hnin]
        rw [ih rns r (pos + 1) h (by omega)]

theorem deleteRowInterval_length {α : Type} (xs : List α) (r : Nat)
    (h1 : 1 ≤ r) (h2 : r ≤ xs.length) :
    (deleteRowInterval xs (r - 1) r).length = xs.length - 1 := by
  simp only [deleteRowInterval, List.length_append, List.length_take,
    List.length_drop]
  omega

theorem deleteFold_eq_keep {α : Type} :
    ∀ (l : List Nat) (xs : List α),
      l.Pairwise (· > ·) → (∀ r ∈ l, 1 ≤ r ∧ r ≤ xs.length) →
      l.foldl (fun s r => deleteRowInterval s (r - 1) r) xs
        = keepRowsNotIn xs l 1 := by
  intro l
  induction l with
  | nil =>
    intro xs _ _
    simp only [List.foldl_nil]
    exact (keepRowsNotIn_all_lt xs [] 1 (by simp)).symm
  | cons r l ih =>
    intro xs hpw hb
    rcases List.pairwise_cons.mp hpw with ⟨hr, hl⟩
    have hrb := hb r (List.mem_cons_self _ _)
    simp only [List.foldl_cons]
    rw [ih (deleteRowInterval xs (r - 1) r) hl ?_]
    · have hshift := keepRowsNotIn_shift xs l r 1 (fun m hm => hr m hm)
        (by omega)
      rw [show r - 1 + 1 = r from by omega] at hshift
      exact hshift
    · intro m hm
      have hmr := hr m hm
      have := hb m (List.mem_cons_of_mem _ hm)
      rw [deleteRowInterval_length xs r hrb.1 hrb.2]
      omega

theorem keepRowsNotIn_congr {α : Type} :
    ∀ (xs : List α) (rns rns2 : List Nat) (pos : Nat),
      (∀ m, m ∈ rns ↔ m ∈ rns2) →
      keepRowsNotIn xs rns pos = keepRowsNotIn xs rns2 pos := by
  intro xs
  induction xs with
  | nil => intro _ _ _ _; rfl
  | cons x t ih =>
    intro rns rns2 pos h
    by_cases hin : pos ∈ rns
    · simp only [keepRowsNotIn, if_pos hin, if_pos ((h pos).mp hin)]
      exact ih rns rns2 (pos + 1) h
    · have hnin : pos ∉ rns2 := fun hm => hin ((h pos).mpr hm)
      simp only [keepRowsNotIn, if_neg hin, if_neg hnin]
      rw [ih rns rns2 (pos + 1) h]

/-- Claim C4: for every nonempty list of distinct valid 1-based row
numbers, batch deletion sorts the numbers descending, deletes the half-open
zero-based interval [r - 1, r) for each, and removes exactly the requested
1-based rows, independently of the order in which the caller listed them. -/
theorem deleteRowsByNumber_correct {α : Type} (xs : List α) (rns : List Nat)
    (hnd : rns.Nodup) (hb : ∀ r ∈ rns, 1 ≤ r ∧ r ≤ xs.length) :
    deleteRowsByNumber xs rns = keepRowsNotIn xs rns 1 ∧
    (sortDesc rns).Pairwise (· ≥ ·) ∧
    List.Perm (sortDesc rns) rns ∧
    ∀ rns2, List.Perm rns2 rns →
      deleteRowsByNumber xs rns2 = deleteRowsByNumber xs rns := by
  have main : ∀ l : List Nat, l.Nodup → (∀ r ∈ l, 1 ≤ r ∧ r ≤ xs.length) →
      deleteRowsByNumber xs l = keepRowsNotIn xs l 1 := by
    intro l hnd2 hb2
    unfold deleteRowsByNumber
    rw [deleteFold_eq_keep (sortDesc l) xs (sortDesc_pairwise_gt hnd2)
      (fun r hr => hb2 r ((sortDesc_perm l).mem_iff.mp hr))]
    exact keepRowsNotIn_congr xs (sortDesc l) l 1
      (fun m => (sortDesc_perm l).mem_iff)
  refine ⟨main rns hnd hb, sortDesc_pairwise rns, sortDesc_perm rns, ?_⟩
  intro rns2 hperm
  rw [main rns2 (hperm.nodup_iff.mpr hnd)
    (fun r hr => hb r (hperm.mem_iff.mp hr)), main rns hnd hb]
  exact keepRowsNotIn_congr xs rns2 rns 1 (fun m => hperm.mem_iff)

/-- Witness for C4: deleting rows [3,1,5] from a 10-row sheet leaves
exactly the rows originally numbered 2,4,6,7,8,9,10. -/
theorem deleteRowsByNumber_correct_witness :
    deleteRowsByNumber
        ["r1","r2","r3","r4","r5","r6","r7","r8","r9","r10"] [3,1,5]
      = keepRowsNotIn
        ["r1","r2","r3","r4","r5","r6","r7","r8","r9","r10"] [3,1,5] 1 ∧
    keepRowsNotIn
        ["r1","r2","r3","r4","r5","r6","r7","r8","r9","r10"] [3,1,5] 1
      = ["r2","r4","r6","r7","r8","r9","r10"] := by
  refine ⟨(deleteRowsByNumber_correct _ _ (by decide) (by decide)).1, by decide⟩

theorem spliceInsert_nonneg_le (xs : List JVal) (k : Int) (ts : JVal)
    (h0 : 0 ≤ k) (hk : k ≤ (xs.length : Int)) :
    spliceInsert xs k ts = xs.take k.toNat ++ ts :: xs.drop k.toNat := by
  simp only [spliceInsert]
  rw [if_neg (show ¬ k < 0 by omega), min_eq_left hk]

theorem spliceInsert_beyond (xs : List JVal) (k : Int) (ts : JVal)
    (h : (xs.length : Int) < k) : spliceInsert xs k ts = xs ++ [ts] := by
  simp only [spliceInsert]
  rw [if_neg (by omega), min_eq_right (by omega)]
  simp

theorem spliceInsert_negOne (xs : List JVal) (ts : JVal) (h : xs ≠ []) :
    spliceInsert xs (-1) ts
      = xs.take (xs.length - 1) ++ ts :: xs.drop (xs.length - 1) := by
  have hlen : 1 ≤ xs.length := List.length_pos.mpr h
  simp only [spliceInsert]
  rw [if_pos (by omega)]
  rw [show (max ((xs.length : Int) + -1) 0).toNat = xs.length - 1 by omega]

/-- Claim C1 (amended): with includeTimestamp the googleSheetsService
composer prepends for column 0, appends for column -1, and for another
in-range index k makes the timestamp the element at index k, shifting the
rest right; an index beyond the length clamps to an append.  The
serverless composer instead always uses splice semantics, so column -1
inserts the timestamp before the last element rather than appending it. -/
theorem composeRow_timestamp_insertion (data : List JVal) (ts : JVal)
    (k : Int) :
    composeRow data true 0 ts = ts :: data ∧
    composeRow data true (-1) ts = data ++ [ts] ∧
    composeRow data false k ts = data ∧
    composeRowServerless data false k ts = data ∧
    (0 < k → k ≤ (data.length : Int) →
      composeRow data true k ts
        = data.take k.toNat ++ ts :: data.drop k.toNat) ∧
    ((data.length : Int) < k → composeRow data true k ts = data ++ [ts]) ∧
    composeRowServerless data true 0 ts = ts :: data ∧
    (data ≠ [] →
      composeRowServerless data true (-1) ts
        = data.take (data.length - 1) ++ ts :: data.drop (data.length - 1)) := by
  refine ⟨by simp [composeRow], by simp [composeRow], rfl, rfl, ?_, ?_, ?_, ?_⟩
  · intro h1 h2
    have hk0 : (k == 0) = false := by simp; omega
    have hk1 : (k == -1) = false := by simp; omega
    simp only [composeRow, if_true, hk0, hk1, Bool.false_eq_true, if_false]
    exact spliceInsert_nonneg_le data k ts (by omega) h2
  · intro h
    have hk0 : (k == 0) = false := by simp; omega
    have hk1 : (k == -1) = false := by simp; omega
    simp only [composeRow, if_true, hk0, hk1, Bool.false_eq_true, if_false]
    exact spliceInsert_beyond data k ts h
  · simp only [composeRowServerless, if_true]
    rw [spliceInsert_nonneg_le data 0 ts (by omega) (by omega)]
    simp
  · intro h
    simp only [composeRowServerless, if_true]
    exact spliceInsert_negOne data ts h

/-- Witness for C1: inserting at index 1 into a two-element row places the
timestamp second, and the serverless composer at column -1 places it before
the last element. -/
theorem composeRow_timestamp_insertion_witness :
    composeRow [JVal.jstr "a", JVal.jstr "b"] true 1 (JVal.jstr "TS")
      = [JVal.jstr "a", JVal.jstr "TS", JVal.jstr "b"] ∧
    composeRowServerless [JVal.jstr "a", JVal.jstr "b"] true (-1)
        (JVal.jstr "TS")
      = [JVal.jstr "a", JVal.jstr "TS", JVal.jstr "b"] := by
  have h := composeRow_timestamp_insertion [JVal.jstr "a", JVal.jstr "b"]
    (JVal.jstr "TS") 1
  constructor
  · exact (h.2.2.2.2.1 (by decide) (by decide)).trans (by decide)
  · exact (h.2.2.2.2.2.2.2 (by decide)).trans (by decide)

/-- Counterexample for C1: in the serverless append handler,
timestampColumn -1 does not append the timestamp as the new last element:
for row ["a","b"] it produces ["a","TS","b"], not ["a","b","TS"]. -/
theorem timestampColumn_negOne_serverless_cex :
    composeRowServerless [JVal.jstr "a", JVal.jstr "b"] true (-1)
        (JVal.jstr "TS")
      = [JVal.jstr "a", JVal.jstr "TS", JVal.jstr "b"] ∧
    [JVal.jstr "a", JVal.jstr "TS", JVal.jstr "b"]
      ≠ [JVal.jstr "a", JVal.jstr "b", JVal.jstr "TS"] := by
  decide

/-- Claim C3 (amended): in the googleSheetsService append path without an
explicit range, the target range is sheetName!A1:ColumnLetter(rowWidth-1)1,
a single-row range whose end column decodes back to rowWidth - 1; the
serverless append handler instead always sends sheetName!A:Z. -/
theorem appendTargetRange_derivation (s nm : String) (vals : List JVal)
    (it : Bool) (k : Int) (ts : JVal) (w : Nat) :
    appendTargetRange nm none w
      = nm ++ "!A1:" ++ getColumnLetter ((w : Int) - 1) ++ "1" ∧
    lettersToIndex (getColumnLetterCodes (w - 1)) = w - 1 ∧
    appendTargetRange "Sheet1" none 3 = "Sheet1!A1:C1" ∧
    (s ≠ "" → nm ≠ "" →
      (restifyPostEntries (some s) (some nm) (some (.arr vals)) it k none ts
          true).targetRange
        = some (appendTargetRange nm none (composeRow vals it k ts).length)) ∧
    (s ≠ "" → nm ≠ "" →
      (netlifyPostEntries (some s) (some nm) (some (.arr vals)) it k ts
          true).targetRange
        = some (nm ++ "!A:Z")) := by
  refine ⟨rfl, lettersToIndex_getColumnLetterCodes (w - 1), by decide, ?_, ?_⟩
  · intro hs hn
    simp [restifyPostEntries, truthyStr, hs, hn]
  · intro hs hn
    simp [netlifyPostEntries, truthyStr, truthyOpt, truthyBody, hs, hn,
      spreadData, serverlessAppendRange]

/-- Witness for C3: width 3 yields Sheet1!A1:C1 on the googleSheetsService
path and Sheet1!A:Z on the serverless path. -/
theorem appendTargetRange_derivation_witness :
    appendTargetRange "Sheet1" none 3 = "Sheet1!A1:C1" ∧
    (restifyPostEntries (some "sid") (some "Sheet1")
        (some (.arr [JVal.jstr "a", JVal.jstr "b", JVal.jstr "c"])) false 0
        none (JVal.jstr "TS") true).targetRange = some "Sheet1!A1:C1" ∧
    (netlifyPostEntries (some "sid") (some "Sheet1")
        (some (.arr [JVal.jstr "a", JVal.jstr "b", JVal.jstr "c"])) false 0
        (JVal.jstr "TS") true).targetRange = some "Sheet1!A:Z" := by
  have h := appendTargetRange_derivation "sid" "Sheet1"
    [JVal.jstr "a", JVal.jstr "b", JVal.jstr "c"] false 0 (JVal.jstr "TS") 3
  refine ⟨h.2.2.1, ?_, h.2.2.2.2 (by decide) (by decide)⟩
  rw [h.2.2.2.1 (by decide) (by decide)]
  decide

/-- Counterexample for C3: the serverless append call, which never receives
a caller-supplied range, targets Sheet1!A:Z for a width-3 row, not the
derived single-row range Sheet1!A1:C1. -/
theorem append_range_serverless_cex :
    (netlifyPostEntries (some "sid") (some "Sheet1")
        (some (.arr [JVal.jstr "a", JVal.jstr "b", JVal.jstr "c"])) false 0
        (JVal.jstr "TS") true).targetRange = some "Sheet1!A:Z" ∧
    ("Sheet1!A:Z" : String) ≠ "Sheet1!A1:C1" := by
  decide

theorem listContainsSub_append (s t pat : List Char)
    (h : listContainsSub t pat = true) :
    listContainsSub (s ++ t) pat = true := by
  induction s with
  | nil => simpa using h
  | cons c cs ih =>
    simp [listContainsSub, ih]

theorem string_data_append (a b : String) :
    (a ++ b).data = a.data ++ b.data := by
  cases a
  cases b
  rfl

theorem strContains_googleDupMsg (title : String) :
    strContains (googleDupMsg title) "already exists" = true := by
  have hx : listContainsSub
      ("\" already exists. Please enter another name.").data
      ("already exists").data = true := by decide
  show listContainsSub (googleDupMsg title).data ("already exists").data
    = true
  have hd : (googleDupMsg title).data
      = ("A sheet with the name \"").data
        ++ (title.data
          ++ ("\" already exists. Please enter another name.").data) := by
    simp [googleDupMsg, string_data_append]
  rw [hd]
  exact listContainsSub_append _ _ _ (listContainsSub_append _ _ _ hx)

/-- Claim C5 (amended): neither deployment variant answers 409 for an
existing sheet name — the restify variant maps every creation failure to
HTTP 500, and the serverless 409 branch interpolates the out-of-scope
sheetName binding, so the handler itself fails; a successful creation
returns success:true with the new sheet id and title only in the
serverless variant, while the restify variant returns success:true with
neither id nor title. -/
theorem createSheet_conflict_handling (sid title : String)
    (existing : List String) (newId : Nat)
    (hs : sid ≠ "") (ht : title ≠ "") :
    (title ∈ existing →
      restifySheetsPost (some sid) (some title) existing newId
        = ⟨500, false, none, none, some "Failed to create sheet"⟩ ∧
      netlifySheetsPost (some sid) (some title) existing newId
        = .error "ReferenceError: sheetName is not defined") ∧
    (title ∉ existing →
      netlifySheetsPost (some sid) (some title) existing newId
        = .ok ⟨200, true, some newId, some title, none⟩ ∧
      restifySheetsPost (some sid) (some title) existing newId
        = ⟨200, true, none, none, none⟩) := by
  constructor
  · intro hmem
    constructor
    · simp [restifySheetsPost, truthyStr, hs, ht, addSheetApi, hmem]
    · simp [netlifySheetsPost, truthyStr, hs, ht, addSheetApi, hmem,
        strContains_googleDupMsg]
  · intro hmem
    constructor
    · simp [netlifySheetsPost, truthyStr, hs, ht, addSheetApi, hmem]
    · simp [restifySheetsPost, truthyStr, hs, ht, addSheetApi, hmem]

/-- Witness for C5: creating the already-present sheet Foo gives 500 in the
restify variant, and creating the fresh sheet Bar succeeds in the
serverless variant with id and title in the body. -/
theorem createSheet_conflict_handling_witness :
    restifySheetsPost (some "sid") (some "Foo") ["Foo"] 7
      = ⟨500, false, none, none, some "Failed to create sheet"⟩ ∧
    netlifySheetsPost (some "sid") (some "Bar") ["Foo"] 7
      = .ok ⟨200, true, some 7, some "Bar", none⟩ := by
  have h1 := createSheet_conflict_handling "sid" "Foo" ["Foo"] 7
    (by decide) (by decide)
  have h2 := createSheet_conflict_handling "sid" "Bar" ["Foo"] 7
    (by decide) (by decide)
  exact ⟨(h1.1 (by decide)).1, (h2.2 (by decide)).1⟩

/-- Counterexample for C5: a POST /sheets for the existing sheet Foo in the
restify variant answers 500, not 409. -/
theorem createSheet_conflict_status_cex :
    (restifySheetsPost (some "sid") (some "Foo") ["Foo"] 7).statusCode = 500 ∧
    (500 : Nat) ≠ 409 := by
  decide

/-- Claim C6 (amended): the restify variant rejects a missing or non-array
data field with 400 before any external call; the serverless variant
rejects only a falsy data field with 400 — a truthy non-array value is not
rejected: a string is spread into its characters and appended, and a
non-iterable value throws, surfacing as 500 without an append. -/
theorem post_entries_data_validation (sid nm : String) (data : Option BodyVal)
    (it : Bool) (k : Int) (rng : Option String) (ts : JVal) (ok : Bool)
    (hs : sid ≠ "") (hn : nm ≠ "") :
    (isArrOpt data = false →
      restifyPostEntries (some sid) (some nm) data it k rng ts ok
        = ⟨400, false, none, none⟩) ∧
    (truthyOpt data = false →
      netlifyPostEntries (some sid) (some nm) data it k ts ok
        = ⟨400, false, none, none⟩) ∧
    (∀ str : String, str ≠ "" →
      (netlifyPostEntries (some sid) (some nm) (some (.scalar (.jstr str)))
          it k ts ok).appendCalled = true) ∧
    (∀ n : Int, n ≠ 0 →
      netlifyPostEntries (some sid) (some nm) (some (.scalar (.jnum n)))
          it k ts ok = ⟨500, false, none, none⟩) := by
  refine ⟨?_, ?_, ?_, ?_⟩
  · intro h
    cases data with
    | none => simp [restifyPostEntries, truthyStr, hs, hn]
    | some bv =>
      cases bv with
      | scalar v => simp [restifyPostEntries, truthyStr, hs, hn]
      | arr es => simp [isArrOpt] at h
  · intro h
    simp [netlifyPostEntries, truthyStr, hs, hn, h]
  · intro str hstr
    simp [netlifyPostEntries, truthyStr, truthyOpt, truthyBody, truthy,
      hs, hn, hstr, spreadData]
  · intro n hn2
    simp [netlifyPostEntries, truthyStr, truthyOpt, truthyBody, truthy,
      hs, hn, hn2, spreadData]

/-- Witness for C6: a non-array data field is rejected with 400 by the
restify variant, and a missing data field is rejected with 400 by the
serverless variant. -/
theorem post_entries_data_validation_witness :
    restifyPostEntries (some "sid") (some "S") (some (.scalar (.jstr "x")))
        false 0 none (JVal.jstr "TS") true = ⟨400, false, none, none⟩ ∧
    netlifyPostEntries (some "sid") (some "S") none false 0 (JVal.jstr "TS")
        true = ⟨400, false, none, none⟩ := by
  have h1 := post_entries_data_validation "sid" "S"
    (some (.scalar (.jstr "x"))) false 0 none (JVal.jstr "TS") true
    (by decide) (by decide)
  have h2 := post_entries_data_validation "sid" "S" none false 0 none
    (JVal.jstr "TS") true (by decide) (by decide)
  exact ⟨h1.1 (by decide), h2.2.1 (by decide)⟩

/-- Counterexample for C6: the serverless POST /entries with the non-array
data "ab" is not rejected with 400: the string is spread into its
characters and the external append is invoked. -/
theorem post_entries_nonarray_cex :
    netlifyPostEntries (some "sid") (some "Sheet1")
        (some (.scalar (.jstr "ab"))) false 0 (JVal.jstr "TS") true
      = ⟨200, true, some [JVal.jstr "a", JVal.jstr "b"], some "Sheet1!A:Z"⟩ ∧
    (200 : Nat) ≠ 400 := by
  decide

/-- Claim C7 (amended): an empty (or missing) sheet name is rejected by the
handlers of both variants with a 400 validation response before any range
is derived or external call made; a zero row width, however, is not
validated: an empty data array passes validation, the googleSheetsService
path derives the degenerate range sheetName!A1:1 (the column letter of
index -1 being the empty string) and the external append is invoked, as it
also is on the serverless path with range sheetName!A:Z. -/
theorem write_range_validation (sid : Option String) (s2 nm : String)
    (data : Option BodyVal) (it : Bool) (k : Int) (rng : Option String)
    (ts : JVal) (ok : Bool) (hs : s2 ≠ "") (hn : nm ≠ "") :
    restifyPostEntries sid (some "") data it k rng ts ok
      = ⟨400, false, none, none⟩ ∧
    netlifyPostEntries sid (some "") data it k ts ok
      = ⟨400, false, none, none⟩ ∧
    restifyPostEntries sid none data it k rng ts ok
      = ⟨400, false, none, none⟩ ∧
    restifyPostEntries (some s2) (some nm) (some (.arr [])) false 0 none ts
        true
      = ⟨200, true, some [],
          some (nm ++ "!A1:" ++ getColumnLetter (-1) ++ "1")⟩ ∧
    getColumnLetter (-1) = "" ∧
    appendTargetRange "Sheet1" none 0 = "Sheet1!A1:1" ∧
    netlifyPostEntries (some s2) (some nm) (some (.arr [])) false 0 ts true
      = ⟨200, true, some [], some (nm ++ "!A:Z")⟩ := by
  refine ⟨?_, ?_, ?_, ?_, by decide, by decide, ?_⟩
  · simp [restifyPostEntries, truthyStr]
  · simp [netlifyPostEntries, truthyStr]
  · simp [restifyPostEntries, truthyStr]
  · simp [restifyPostEntries, truthyStr, hs, hn, composeRow,
      appendTargetRange, jsOr]
  · simp [netlifyPostEntries, truthyStr, truthyOpt, truthyBody, hs, hn,
      spreadData, composeRowServerless, serverlessAppendRange]

/-- Witness for C7: an empty sheet name is rejected with 400 and no
external call, while an empty (width-0) row is appended to the degenerate
range Sheet1!A1:1. -/
theorem write_range_validation_witness :
    netlifyPostEntries (some "sid") (some "") (some (.arr [JVal.jstr "a"]))
        false 0 (JVal.jstr "TS") true = ⟨400, false, none, none⟩ ∧
    restifyPostEntries (some "sid") (some "Sheet1") (some (.arr [])) false 0
        none (JVal.jstr "TS") true
      = ⟨200, true, some [],
          some ("Sheet1" ++ "!A1:" ++ getColumnLetter (-1) ++ "1")⟩ := by
  have h := write_range_validation (some "sid") "sid" "Sheet1"
    (some (.arr [JVal.jstr "a"])) false 0 none (JVal.jstr "TS") true
    (by decide) (by decide)
  exact ⟨h.2.1, h.2.2.2.1⟩

/-- Counterexample for C7: resolving the write range for a zero-width row
does not fail with a validation error: the restify pipeline derives
Sheet1!A1:1 and invokes the external append. -/
theorem write_range_zero_width_cex :
    restifyPostEntries (some "sid") (some "Sheet1") (some (BodyVal.arr []))
        false 0 none (JVal.jstr "TS") true
      = ⟨200, true, some [], some "Sheet1!A1:1"⟩ ∧
    (200 : Nat) ≠ 400 := by
  decide

/-- Claim C8 (amended): the serverless read path resolves the range as the
claim states — sheetName!range when a range is given, sheetName!A5:Z10
style bounds when startRow and endRow are given, open-ended
sheetName!A5:Z for startRow alone, and sheetName!A:Z by default — but the
restify read path uses an explicit range verbatim, without the sheet-name
prefix, and supports no row bounds. -/
theorem resolveReadRange_cases (nm r : String) (sv ev : Int)
    (so eo : Option Int) :
    (r ≠ "" → netlifyReadRange nm (some r) so eo = nm ++ "!" ++ r) ∧
    netlifyReadRange nm none (some sv) (some ev)
      = nm ++ "!A" ++ toString sv ++ ":Z" ++ toString ev ∧
    netlifyReadRange nm none (some sv) none
      = nm ++ "!A" ++ toString sv ++ ":Z" ∧
    netlifyReadRange nm none none eo = nm ++ "!A:Z" ∧
    (r ≠ "" → restifyReadRange nm (some r) = r) ∧
    restifyReadRange nm none = nm ++ "!A:Z" ∧
    netlifyReadRange "Sheet1" none none none = "Sheet1!A:Z" ∧
    netlifyReadRange "Sheet1" none (some 5) (some 10) = "Sheet1!A5:Z10" := by
  refine ⟨?_, ?_, ?_, ?_, ?_, ?_, by decide, by decide⟩
  · intro h
    simp [netlifyReadRange, truthyStr, h]
  · simp [netlifyReadRange, truthyStr]
  · simp [netlifyReadRange, truthyStr]
  · simp [netlifyReadRange, truthyStr]
  · intro h
    simp [restifyReadRange, jsOr, h]
  · simp [restifyReadRange, jsOr]

/-- Witness for C8: the explicit range A1:B2 is prefixed with the sheet
name on the serverless path but used verbatim on the restify path. -/
theorem resolveReadRange_cases_witness :
    netlifyReadRange "Sheet1" (some "A1:B2") none none = "Sheet1!A1:B2" ∧
    restifyReadRange "Sheet1" (some "A1:B2") = "A1:B2" := by
  have h := resolveReadRange_cases "Sheet1" "A1:B2" 5 10 none none
  exact ⟨(h.1 (by decide)).trans (by decide), h.2.2.2.2.1 (by decide)⟩

/-- Counterexample for C8: the restify GET /entries resolves the explicit
range A1:B2 to the unprefixed A1:B2, not to Sheet1!A1:B2. -/
theorem read_range_restify_verbatim_cex :
    restifyReadRange "Sheet1" (some "A1:B2") = "A1:B2" ∧
    ("A1:B2" : String) ≠ "Sheet1!A1:B2" := by
  decide

/-- Claim C9: a GET /entries request with the sheetName (or spreadsheetId)
parameter missing answers 400 and performs no external call, in both
deployment variants. -/
theorem get_entries_missing_params_400 (sid nm rng : Option String)
    (so eo : Option Int) (h : nm = none ∨ sid = none) :
    netlifyGetEntries sid nm rng so eo = ⟨400, false, none⟩ ∧
    restifyGetEntries sid nm rng = ⟨400, false, none⟩ := by
  rcases h with rfl | rfl
  · constructor <;> simp [netlifyGetEntries, restifyGetEntries, truthyStr]
  · constructor <;> simp [netlifyGetEntries, restifyGetEntries, truthyStr]

/-- Witness for C9: with sheetName missing, both variants answer 400
without reaching the external read. -/
theorem get_entries_missing_params_400_witness :
    netlifyGetEntries (some "sid") none none none none
      = ⟨400, false, none⟩ ∧
    restifyGetEntries (some "sid") none none = ⟨400, false, none⟩ :=
  get_entries_missing_params_400 (some "sid") none none none none
    (Or.inl rfl)

/-- Claim C10: on a serverless read that fetched at least one row, the
default header mode returns the first fetched row as headers and the rest
as data with totalRows one less than the number fetched; with
includeHeader equal to the string false, headers is null, every fetched
row is data, and totalRows is the number fetched. -/
theorem getRowData_header_handling (hrow : List String)
    (t : List (List String)) (q : Option String) :
    (q ≠ some "false" →
      getRowDataProcess (hrow :: t) (parseIncludeHeader q)
        = ⟨some hrow, t, t.length⟩ ∧ t.length = (hrow :: t).length - 1) ∧
    (q = some "false" →
      getRowDataProcess (hrow :: t) (parseIncludeHeader q)
        = ⟨none, hrow :: t, (hrow :: t).length⟩) := by
  constructor
  · intro hq
    have hp : parseIncludeHeader q = true := by
      simp [parseIncludeHeader, hq]
    constructor
    · simp [getRowDataProcess, hp]
    · simp
  · intro hq
    subst hq
    simp [getRowDataProcess, parseIncludeHeader]

/-- Witness for C10: a two-row fetch splits into one header row and one
data row by default, and returns null headers with both rows as data when
includeHeader is the string false. -/
theorem getRowData_header_handling_witness :
    getRowDataProcess [["H1", "H2"], ["a", "b"]] (parseIncludeHeader none)
      = ⟨some ["H1", "H2"], [["a", "b"]], 1⟩ ∧
    getRowDataProcess [["H1", "H2"], ["a", "b"]]
        (parseIncludeHeader (some "false"))
      = ⟨none, [["H1", "H2"], ["a", "b"]], 2⟩ := by
  have h1 := getRowData_header_handling ["H1", "H2"] [["a", "b"]] none
  have h2 := getRowData_header_handling ["H1", "H2"] [["a", "b"]]
    (some "false")
  exact ⟨(h1.1 (by decide)).1, h2.2 rfl⟩

end SheetsProxy
